import Mathlib

/-!
# Taskbot-MVP: verification of the task orchestration core

A shallow embedding of the core algorithmic parts of the Taskbot-MVP
repository, together with theorems settling the claims about them.

Embedded components, with their source locations:
* candidate matching/scoring — `src/app/services/match.py` (`MatchingService`);
* task lifecycle transitions — `src/app/services/task_manager.py` (`TaskManager`);
* creation dedup guard — `src/app/main.py` (`handle_new_task_request`,
  `task_creation_cache`);
* message dedup guard — `src/app/main.py` (`handle_message_event`,
  `processed_messages`) and `src/app/webhooks.py` (`handle_message_event`,
  `_processed_messages`), which implement the same logic.

Modelling conventions:
* Python floats are modelled by exact rationals (`ℚ`); all numeric literals in
  the source (`0.4`, `1.5`, thresholds, …) are decimal and kept exact.
* Timestamps (`datetime.now()`, `time.time()`) are passed explicitly as `Nat`
  parameters (seconds; `last_done_at` keeps the source's milliseconds and is
  divided by 1000 exactly as the source does).
* Store writes (`bitable.update_task`) merge fields into the task record; they
  are modelled as record updates on `TaskRecord`.
* Network/chat side effects (Feishu messages) and logging are not part of any
  claim and are omitted; the human-readable `reasons` strings built alongside the
  scores are likewise omitted, only the numeric scores are modelled.
* Fallible external collaborators (the review evaluator) are modelled as an
  `Except` argument carrying either their result or their raised error.
-/

namespace Taskbot

/-! ## Candidate matching (`src/app/services/match.py`)

Skill tags are strings compared after `.lower()`; the Python `in` substring
test is modelled on `List Char`. `Char.toLower` agrees with Python's
`str.lower` on the ASCII skill tags used throughout the repository. -/

/-- A skill tag, as its character list. -/
abbrev Skill := List Char

/-- `listStartsWith needle hay`: `needle` is an initial segment of `hay`. -/
def listStartsWith : List Char → List Char → Bool
  | [], _ => true
  | _ :: _, [] => false
  | a :: as, b :: bs => a == b && listStartsWith as bs

/-- `substrOf needle hay` models Python's `needle in hay` substring test. -/
def substrOf (needle : List Char) : List Char → Bool
  | [] => needle.isEmpty
  | c :: cs => listStartsWith needle (c :: cs) || substrOf needle cs

/-- Lowercase a skill tag, as `skill.lower()` does in
`MatchingService.calculate_skill_match` (match.py lines 50–51). -/
def lowerSkill (s : Skill) : Skill := s.map Char.toLower

/-- The distinct required skills with an exact (case-insensitive) match among
the candidate's skills: Python's `set(required_lower) & set(candidate_lower)`
(match.py line 54), as a deduplicated filtered list. -/
def exactMatches (requiredLower candidateLower : List Skill) : List Skill :=
  requiredLower.dedup.filter (fun r => candidateLower.contains r)

/-- The distinct required skills with a substring match in either direction
(`req_skill in cand_skill or cand_skill in req_skill`, match.py lines 58–62).
Note that every exact match is also collected here, since a string is a
substring of itself. -/
def partialMatches (requiredLower candidateLower : List Skill) : List Skill :=
  requiredLower.dedup.filter
    (fun r => candidateLower.any (fun c => substrOf r c || substrOf c r))

/-- `MatchingService.calculate_skill_match` (match.py lines 40–78), numeric
result only. Scores are `len(matches) / len(required_lower)` scaled, where
`len(required_lower)` counts duplicates, and the final score is
`min(100, exact_score + partial_score)`. -/
def calculate_skill_match (required_skills candidate_skills : List Skill) : ℚ :=
  if required_skills = [] then 100
  else if candidate_skills = [] then 0
  else
    let requiredLower := required_skills.map lowerSkill
    let candidateLower := candidate_skills.map lowerSkill
    let exactScore : ℚ :=
      (exactMatches requiredLower candidateLower).length / requiredLower.length * 100
    let partialScore : ℚ :=
      (partialMatches requiredLower candidateLower).length / requiredLower.length * 50
    min 100 (exactScore + partialScore)

/-- `MatchingService.calculate_availability_score` (match.py lines 80–105).
The complexity string is lowercased and looked up in
`{"low": 5, "medium": 15, "high": 30}` with default 15. -/
def calculate_availability_score (hours_available : ℚ) (task_complexity : List Char) : ℚ :=
  let lowered := lowerSkill task_complexity
  let requiredHours : ℚ :=
    if lowered = "low".toList then 5
    else if lowered = "medium".toList then 15
    else if lowered = "high".toList then 30
    else 15
  if requiredHours * 1.5 ≤ hours_available then 100
  else if requiredHours ≤ hours_available then 80
  else if requiredHours * 0.7 ≤ hours_available then 60
  else 30

/-- `MatchingService.calculate_performance_score` (match.py lines 107–118). -/
def calculate_performance_score (performance : ℚ) : ℚ :=
  if 90 ≤ performance then 100
  else if 80 ≤ performance then 85
  else if 70 ≤ performance then 70
  else if 60 ≤ performance then 55
  else 30

/-- `MatchingService.calculate_recency_score` (match.py lines 120–146), for a
millisecond timestamp or no history. `days_since` is the whole number of days
between `now` and `last_done_at / 1000`, as `(datetime.now() - last_done).days`
computes it. The source's string-typed inputs (`"无"`, unparsable strings),
which also score 50, are not modelled: the claims only involve timestamps or
absent history. -/
def calculate_recency_score (nowSec : Nat) (last_done_at : Option Nat) : ℚ :=
  match last_done_at with
  | none => 50
  | some lastMs =>
    let daysSince := (nowSec - lastMs / 1000) / 86400
    if daysSince ≤ 7 then 100
    else if daysSince ≤ 30 then 80
    else if daysSince ≤ 90 then 60
    else 40

/-- `MatchScore` (match.py lines 17–25), numeric fields. -/
structure MatchScore where
  skill_score : ℚ
  availability_score : ℚ
  performance_score : ℚ
  recency_score : ℚ
  total_score : ℚ
  deriving DecidableEq

/-- A candidate, with the fields `calculate_match_score` extracts from the
record dict (match.py lines 155–174). The bilingual (`技能标签`/`skill_tags`,
…) alias resolution at the dict boundary is modelled by passing the already
extracted values. -/
structure Candidate where
  userId : String
  skillTags : List Skill
  hoursAvailable : ℚ
  performance : ℚ
  lastDoneAt : Option Nat
  deriving DecidableEq

/-- `MatchingService.calculate_match_score` (match.py lines 148–217): the four
subscores combined with the fixed weights 0.4 / 0.25 / 0.2 / 0.15. -/
def calculate_match_score (required_skills : List Skill) (task_complexity : List Char)
    (nowSec : Nat) (c : Candidate) : MatchScore :=
  let skill := calculate_skill_match required_skills c.skillTags
  let availability := calculate_availability_score c.hoursAvailable task_complexity
  let performance := calculate_performance_score c.performance
  let recency := calculate_recency_score nowSec c.lastDoneAt
  { skill_score := skill
    availability_score := availability
    performance_score := performance
    recency_score := recency
    total_score := skill * 0.4 + availability * 0.25 + performance * 0.2 + recency * 0.15 }

/-- A candidate enriched with its match information, as
`find_top_candidates` builds `candidate_with_score` (match.py lines 283–305):
the original record plus `match_score = int(total_score)` (floor, totals being
non-negative) and the subscore breakdown. -/
structure Scored where
  cand : Candidate
  matchScore : ℤ
  breakdown : MatchScore
  deriving DecidableEq

/-- The ordering used by `scored_candidates.sort(key=..., reverse=True)`
(match.py line 311): `a` may come before `b` iff `a`'s score is at least
`b`'s. Python's `list.sort` is stable, which `List.insertionSort` with this
relation reproduces exactly. -/
def scoreGE (a b : Scored) : Prop := b.matchScore ≤ a.matchScore

instance : DecidableRel scoreGE :=
  fun a b => inferInstanceAs (Decidable (b.matchScore ≤ a.matchScore))

instance : IsTotal Scored scoreGE := ⟨fun a b => le_total b.matchScore a.matchScore⟩

instance : IsTrans Scored scoreGE := ⟨fun _ _ _ h h' => le_trans h' h⟩

/-- Score one candidate inside the `find_top_candidates` loop
(match.py lines 280–308). -/
def scoreCandidate (required_skills : List Skill) (task_complexity : List Char)
    (nowSec : Nat) (c : Candidate) : Scored :=
  let ms := calculate_match_score required_skills task_complexity nowSec c
  { cand := c, matchScore := ⌊ms.total_score⌋, breakdown := ms }

/-- `MatchingService.find_top_candidates` (match.py lines 241–319).
The candidate-pool read `get_cached_candidates()` and any exception raised
inside the body are modelled by the `Except` argument: the surrounding
`try/except` returns `[]` on any error (lines 317–319). An empty pool returns
`[]` (lines 248–250); the LLM path is disabled in the source (lines 252–254),
so the rule-based path always runs: score every candidate, sort by
`match_score` descending (stable), and keep the first three. -/
def find_top_candidates (fetched : Except String (List Candidate))
    (required_skills : List Skill) (task_complexity : List Char) (nowSec : Nat) :
    List Scored :=
  match fetched with
  | .error _ => []
  | .ok [] => []
  | .ok candidates =>
    let scored := candidates.map (scoreCandidate required_skills task_complexity nowSec)
    (scored.insertionSort scoreGE).take 3

/-! ## Task lifecycle (`src/app/services/task_manager.py`)

`TaskManager` stores tasks in a Bitable table; `bitable.update_task(id, d)`
merges the dict `d` into the record. The record is modelled as `TaskRecord`
and each update as a record update. Every `TaskManager` method wraps its body
in `try/except`; methods returning `bool` report a failed precondition
(a raised `ValueError`) as `False` with no store write, modelled by returning
`(false, unchanged record)`. -/

/-- `TaskStatus` (task_manager.py lines 15–24). -/
inductive TaskStatus where
  | pending
  | assigned
  | in_progress
  | submitted
  | reviewing
  | completed
  | rejected
  | cancelled
  deriving DecidableEq

/-- A task record, with the fields written by `TaskManager.create_task`
(task_manager.py lines 50–60) and by the later `update_task` merges.
Timestamps (stored as ISO strings in the source) are modelled as `Option Nat`
seconds; `deadline` is stored, never parsed or compared, and stays a string. -/
structure TaskRecord where
  taskid : String
  title : String
  description : String
  skilltags : List String
  deadline : String
  status : TaskStatus
  urgency : String
  creator : String
  create_time : Nat
  candidates : List String := []
  assigned_at : Option Nat := none
  assignee : Option String := none
  accepted_at : Option Nat := none
  submission_url : Option String := none
  submission_note : Option String := none
  submitted_at : Option Nat := none
  review_started_at : Option Nat := none
  review_note : Option String := none
  completed_at : Option Nat := none
  rejected_at : Option Nat := none
  final_score : Option ℤ := none
  review_result : Option String := none
  failed_reasons : List String := []

/-- The `task_data` dict passed to `TaskManager.create_task`; an absent key is
`none`. -/
structure TaskSpec where
  title : Option String := none
  description : Option String := none
  skill_tags : Option (List String) := none
  deadline : Option String := none
  urgency : Option String := none
  created_by : Option String := none
  creator : Option String := none

/-- `TaskManager.create_task` (task_manager.py lines 40–70): raise
`ValueError("Missing required field: f")` for the first of
`title, description, skill_tags, deadline` not present in the dict — nothing
else is validated — otherwise persist the record with status `pending` and
the generated id. `now` stands for `datetime.now()`. -/
def create_task (task_data : TaskSpec) (now : Nat) : Except String TaskRecord :=
  match task_data.title with
  | none => .error "Missing required field: title"
  | some title =>
  match task_data.description with
  | none => .error "Missing required field: description"
  | some description =>
  match task_data.skill_tags with
  | none => .error "Missing required field: skill_tags"
  | some skill_tags =>
  match task_data.deadline with
  | none => .error "Missing required field: deadline"
  | some deadline =>
    .ok { taskid := "TASK" ++ toString now
          title := title
          description := description
          skilltags := skill_tags
          deadline := deadline
          status := .pending
          urgency := task_data.urgency.getD "normal"
          creator := (task_data.created_by.getD (task_data.creator.getD ""))
          create_time := now }

/-- `TaskManager._auto_assign_task` (task_manager.py lines 72–112), state
update only: the matcher's result (`matches`, already ranked) is passed in;
with no candidates or no matches the task is left untouched, otherwise the
record gets status `assigned`, the matched user ids and `assigned_at`. -/
def auto_assign_task (task : TaskRecord) (matchList : List String) (now : Nat) : TaskRecord :=
  if matchList = [] then task
  else { task with status := .assigned, candidates := matchList, assigned_at := some now }

/-- `TaskManager.accept_task` (task_manager.py lines 114–158): requires status
`assigned` and the user among `candidates`; then sets `in_progress`, the
assignee and `accepted_at`. A failed check raises, is caught, and returns
`False` with no write. -/
def accept_task (task : TaskRecord) (user_id : String) (now : Nat) :
    Bool × TaskRecord :=
  if task.status ≠ TaskStatus.assigned then (false, task)
  else if user_id ∉ task.candidates then (false, task)
  else
    (true, { task with status := .in_progress, assignee := some user_id,
                       accepted_at := some now })

/-- `TaskManager._complete_task` (task_manager.py lines 234–276), state update
only: status `completed`, `completed_at`, `final_score`, `review_result`. -/
def complete_task (task : TaskRecord) (score : ℤ) (now : Nat) : TaskRecord :=
  { task with status := .completed, completed_at := some now,
              final_score := some score, review_result := some "passed" }

/-- `TaskManager._reject_task` (task_manager.py lines 278–307), state update
only: status `rejected`, `rejected_at`, `final_score`, `review_result`,
`failed_reasons`. -/
def reject_task (task : TaskRecord) (score : ℤ) (failed_reasons : List String)
    (now : Nat) : TaskRecord :=
  { task with status := .rejected, rejected_at := some now,
              final_score := some score, review_result := some "failed",
              failed_reasons := failed_reasons }

/-- `TaskManager._auto_quality_check` (task_manager.py lines 197–232). The
task is first moved to `reviewing` with `review_started_at`; then the review
evaluator (`ci_service.evaluate_submission`, an external collaborator) either
returns `(score, failed_reasons)` or raises — modelled by the `Except`
argument. `passed = score >= settings.min_pass_score and len(failed_reasons)
== 0` (line 217); `min_pass_score` is the configured pass threshold, passed
here as a parameter (`config.py` does not actually declare a `min_pass_score`
field even though task_manager.py line 217 and api.py line 361 read it). On
pass the task is completed, otherwise it is rejected — there is no retry
branch. If the evaluator raised, the task stays `reviewing` with a manual
review note (lines 226–232). -/
def auto_quality_check (task : TaskRecord) (min_pass_score : ℤ)
    (evalResult : Except String (ℤ × List String)) (now : Nat) : TaskRecord :=
  let reviewing := { task with status := TaskStatus.reviewing,
                               review_started_at := some now }
  match evalResult with
  | .error e =>
    { reviewing with status := TaskStatus.reviewing,
                     review_note := some ("AI审核失败，需要人工审核: " ++ e) }
  | .ok (score, failed_reasons) =>
    if min_pass_score ≤ score ∧ failed_reasons = [] then
      complete_task reviewing score now
    else
      reject_task reviewing score failed_reasons now

/-- `TaskManager.submit_task` (task_manager.py lines 160–195): requires status
`in_progress` and the submitting user to be the assignee; then writes
`submitted`, the submission URL and `submitted_at`, and synchronously runs
`_auto_quality_check`. -/
def submit_task (task : TaskRecord) (user_id : String) (submission_url : String)
    (min_pass_score : ℤ) (evalResult : Except String (ℤ × List String))
    (now : Nat) : Bool × TaskRecord :=
  if task.status ≠ TaskStatus.in_progress then (false, task)
  else if task.assignee ≠ some user_id then (false, task)
  else
    let submitted := { task with status := TaskStatus.submitted,
                                 submission_url := some submission_url,
                                 submitted_at := some now }
    (true, auto_quality_check submitted min_pass_score evalResult now)

/-! ## Creation dedup guard (`src/app/main.py` lines 32–38 and 670–706)

`task_creation_cache` is a dict from `task_key` (chat id + MD5 of the message
content, modelled as an opaque string key) to the admission time. Python
floats `time.time()` are modelled as `Nat` seconds; the comparisons
`time_diff < WINDOW` and `current_time - v > WINDOW` translate verbatim, and
`Nat` truncated subtraction gives the same branch as Python's negative
difference whenever a stored time exceeds `now`. -/

/-- `TASK_CREATION_WINDOW` (main.py line 34). -/
def TASK_CREATION_WINDOW : Nat := 300

/-- Dict lookup `task_key in task_creation_cache` /
`task_creation_cache[task_key]`. -/
def lookupEntry : List (String × Nat) → String → Option Nat
  | [], _ => none
  | (k, v) :: rest, key => if k = key then some v else lookupEntry rest key

/-- Dict store `task_creation_cache[task_key] = current_time`: overwrite in
place, or append a new entry. -/
def setEntry : List (String × Nat) → String → Nat → List (String × Nat)
  | [], key, now => [(key, now)]
  | (k, v) :: rest, key, now =>
    if k = key then (key, now) :: rest else (k, v) :: setEntry rest key now

/-- The admission test of `handle_new_task_request` (main.py lines 683–694):
a creation proceeds unless the key was admitted less than
`TASK_CREATION_WINDOW` seconds ago. -/
def creationAllowed (cache : List (String × Nat)) (key : String) (now : Nat) : Bool :=
  match lookupEntry cache key with
  | some last => ¬ (now - last < TASK_CREATION_WINDOW)
  | none => true

/-- The recording and sweeping path of an admitted creation (main.py lines
696–703): store `(key, now)`, then delete every entry with
`current_time - v > TASK_CREATION_WINDOW`. -/
def recordCreation (cache : List (String × Nat)) (key : String) (now : Nat) :
    List (String × Nat) :=
  (setEntry cache key now).filter (fun e => ¬ (TASK_CREATION_WINDOW < now - e.2))

/-- The full guard: reject with no cache change inside the window, otherwise
record and sweep. -/
def admitCreation (cache : List (String × Nat)) (key : String) (now : Nat) :
    Bool × List (String × Nat) :=
  if creationAllowed cache key now then (true, recordCreation cache key now)
  else (false, cache)

/-! ## Message dedup guard (`src/app/main.py` lines 28–30 and 323–351;
`src/app/webhooks.py` lines 20–21 and 754–768)

`processed_messages` is a Python `set`; on overflow the code evicts
`list(processed_messages)[:MAX_CACHE_SIZE // 2]`. A CPython `set` keeps no
insertion order: `list(s)` enumerates the hash table, an order unrelated to
arrival time (and randomized across processes for strings). The set is
modelled as its canonical enumeration — a strictly sorted list of opaque
message ids (`Nat`) — so `list(s)[:k]` becomes `take k` of that enumeration
and removing those entries becomes `drop k`. Any age-independent enumeration
gives the same conclusions; none matches insertion order. -/

/-- `MAX_CACHE_SIZE` (main.py line 30; `_max_cache_size`, webhooks.py
line 21). -/
def MAX_CACHE_SIZE : Nat := 1000

/-- Set insertion keeping the canonical (sorted, duplicate-free)
enumeration. -/
def insertSortedId (m : Nat) : List Nat → List Nat
  | [] => [m]
  | x :: xs =>
    if m < x then m :: x :: xs
    else if m = x then x :: xs
    else x :: insertSortedId m xs

/-- The message dedup guard of `handle_message_event` (main.py lines 330–351;
identically webhooks.py lines 756–768): skip an already-seen id; otherwise add
it, and if the set then exceeds `MAX_CACHE_SIZE`, remove the first
`MAX_CACHE_SIZE // 2` entries of the set's enumeration. -/
def admitMessage (seen : List Nat) (messageId : Nat) : Bool × List Nat :=
  if messageId ∈ seen then (false, seen)
  else
    let added := insertSortedId messageId seen
    if MAX_CACHE_SIZE < added.length then
      (true, added.drop (MAX_CACHE_SIZE / 2))
    else
      (true, added)

/-- Fold `admitMessage` over a sequence of incoming message ids, oldest
first. -/
def runAdmits (messageIds : List Nat) : List Nat :=
  messageIds.foldl (fun seen m => (admitMessage seen m).2) []
/-! ## Spec-side formulas and scenario constants used by the claims -/

/-- The skill subscore as claim C4 words it: the partial-match bonus counts
only substring matches *not already exact*. Stated for comparison with
`calculate_skill_match`; the source's bonus counts every substring match,
exact ones included. -/
def claimedSkillScoreC4 (required candidate : List Skill) : ℚ :=
  if required = [] then 100
  else if candidate = [] then 0
  else
    let requiredLower := required.map lowerSkill
    let candidateLower := candidate.map lowerSkill
    let ex := exactMatches requiredLower candidateLower
    let partialOnly :=
      (partialMatches requiredLower candidateLower).filter (fun r => ¬ ex.contains r)
    min 100 (100 * (ex.length : ℚ) / requiredLower.length
      + 50 * (partialOnly.length : ℚ) / requiredLower.length)

/-- The skill subscore as the amended claim words it: exact-match and
substring-match counts are cardinalities of the sets of distinct lowercased
required skills with a candidate match, the bonus counting every
substring-related skill (exact ones included), the sum capped at 100. -/
def specSkillScoreAmended (required candidate : List Skill) : ℚ :=
  if required = [] then 100
  else if candidate = [] then 0
  else
    let requiredLower := required.map lowerSkill
    let candidateLower := candidate.map lowerSkill
    let nExact := (requiredLower.toFinset.filter
      (fun r => candidateLower.contains r = true)).card
    let nPartial := (requiredLower.toFinset.filter
      (fun r => candidateLower.any (fun c => substrOf r c || substrOf c r) = true)).card
    min 100 (100 * (nExact : ℚ) / requiredLower.length
      + 50 * (nPartial : ℚ) / requiredLower.length)

/-- The end-to-end matching input of claim C5: required skills
`{Python, FastAPI}`. -/
def requiredPF : List Skill := ["Python".toList, "FastAPI".toList]

/-- Reference time for the C5 scenario (seconds). -/
def nowC5 : Nat := 10000000

/-- Candidate A of the C5 scenario: the same two skills, 40 hours available,
performance score 90, last completion exactly three days before `nowC5`
(`lastDoneAt` is a millisecond timestamp, as stored in the person table). -/
def candidateA : Candidate :=
  { userId := "cand_a", skillTags := requiredPF, hoursAvailable := 40,
    performance := 90, lastDoneAt := some ((nowC5 - 3 * 86400) * 1000) }

/-- The match breakdown the source computes for the C5 scenario. -/
def matchA : MatchScore := calculate_match_score requiredPF "medium".toList nowC5 candidateA

/-- Two candidates that differ only in their id; the pool lists the larger id
first, and both score the same total (69). -/
def tieB : Candidate :=
  { userId := "b", skillTags := [], hoursAvailable := 0, performance := 70,
    lastDoneAt := none }

/-- The equal-scoring candidate with the smaller id, listed second. -/
def tieA : Candidate := { tieB with userId := "a" }

/-- The scored entry the ranking loop builds for `tieB`: total
`100·0.4 + 30·0.25 + 70·0.2 + 50·0.15 = 69`. -/
def scoredB : Scored :=
  { cand := tieB, matchScore := 69,
    breakdown := { skill_score := 100, availability_score := 30, performance_score := 70,
                   recency_score := 50, total_score := 69 } }

/-- The scored entry for `tieA`; identical apart from the id. -/
def scoredA : Scored := { scoredB with cand := tieA }

/-- `max_retry_attempts` (config.py lines 59 and 100, default 2): the retry
budget the spec's resubmission loop refers to. No code path in the repository
reads it. -/
def max_retry_attempts : Nat := 2

/-- A well-formed creation request used by the end-to-end scenarios. -/
def specOk : TaskSpec :=
  { title := some "Build the REST API", description := some "Implement the endpoints",
    skill_tags := some ["Python"], deadline := some "2026-12-31",
    created_by := some "creator_1" }

/-- Placeholder record for the impossible error branch of `Except.toOption`. -/
def dummyTask : TaskRecord :=
  { taskid := "", title := "", description := "", skilltags := [], deadline := "",
    status := .cancelled, urgency := "", creator := "", create_time := 0 }

/-- The record persisted by `create(specOk)` at time 100. -/
def taskCreated : TaskRecord := (create_task specOk 100).toOption.getD dummyTask

/-- The record after the matcher assigned `user_1` at time 200. -/
def taskAssigned : TaskRecord := auto_assign_task taskCreated ["user_1"] 200

/-- The result of `user_1` accepting the task at time 300. -/
def acceptResult : Bool × TaskRecord := accept_task taskAssigned "user_1" 300

/-- `submit` at time 400 with the evaluator passing the work: score 85 against
threshold 80, no failure reasons. -/
def submitPass : Bool × TaskRecord :=
  submit_task acceptResult.2 "user_1" "https://github.com/org/repo/pull/1" 80
    (.ok (85, [])) 400

/-- `submit` at time 400 with the evaluator failing the work: score 40 against
threshold 80 on the very first submission. -/
def submitLow : Bool × TaskRecord :=
  submit_task acceptResult.2 "user_1" "https://github.com/org/repo/pull/1" 80
    (.ok (40, ["代码覆盖率不足"])) 400

/-- `submit` at time 400 with the evaluator returning a passing score but a
non-empty failure-reason list. -/
def submitHighWithReasons : Bool × TaskRecord :=
  submit_task acceptResult.2 "user_1" "https://github.com/org/repo/pull/1" 80
    (.ok (85, ["单元测试未通过"])) 400

/-- A creation request with every required key present but an empty skill
list and a deadline in the past — invalid according to the claim. -/
def specNoValidation : TaskSpec :=
  { title := some "t", description := some "d", skill_tags := some [],
    deadline := some "2020-01-01" }

/-! ## Claims about the matcher -/

/-- Counting a deduplicated filtered list is counting the filtered finset. -/
lemma length_dedup_filter {α : Type} [DecidableEq α] (l : List α) (p : α → Bool) :
    (l.dedup.filter p).length = (Finset.filter (fun x => p x = true) l.toFinset).card := by
  have hfin : (l.dedup.filter p).toFinset = Finset.filter (fun x => p x = true) l.toFinset := by
    ext a
    simp [List.mem_filter, List.mem_dedup]
  rw [← hfin, List.toFinset_card_of_nodup (l.nodup_dedup.filter p)]

/-- C4, counterexample. For required skills `{Python, FastAPI}` and candidate
skills `{Python}` the source computes exact score `100·1/2 = 50` plus a
partial bonus `50·1/2 = 25` — `python` is a substring of itself, so the bonus
counts it again — giving 75, while the claimed formula (bonus only for
substring matches not already exact) gives `50 + 0 = 50`. -/
theorem C4_counterexample :
    calculate_skill_match ["Python".toList, "FastAPI".toList] ["Python".toList] = 75 ∧
    claimedSkillScoreC4 ["Python".toList, "FastAPI".toList] ["Python".toList] = 50 ∧
    (75 : ℚ) ≠ 50 := by
  refine ⟨?_, ?_, by norm_num⟩
  · have h1 : (exactMatches (["Python".toList, "FastAPI".toList].map lowerSkill)
        (["Python".toList].map lowerSkill)).length = 1 := by decide
    have h2 : (partialMatches (["Python".toList, "FastAPI".toList].map lowerSkill)
        (["Python".toList].map lowerSkill)).length = 1 := by decide
    have h3 : ((["Python".toList, "FastAPI".toList] : List Skill).map lowerSkill).length = 2 := by
      decide
    unfold calculate_skill_match
    rw [if_neg (by decide), if_neg (by decide)]
    simp only [h1, h2, h3]
    norm_num [min_def]
  · have h1 : (exactMatches (["Python".toList, "FastAPI".toList].map lowerSkill)
        (["Python".toList].map lowerSkill)).length = 1 := by decide
    have h2 : ((partialMatches (["Python".toList, "FastAPI".toList].map lowerSkill)
        (["Python".toList].map lowerSkill)).filter
          (fun r => ¬ (exactMatches (["Python".toList, "FastAPI".toList].map lowerSkill)
            (["Python".toList].map lowerSkill)).contains r)).length = 0 := by decide
    have h3 : ((["Python".toList, "FastAPI".toList] : List Skill).map lowerSkill).length = 2 := by
      decide
    unfold claimedSkillScoreC4
    rw [if_neg (by decide), if_neg (by decide)]
    simp only [h1, h2, h3]
    norm_num [min_def]

/-- C4, amended. The skill subscore equals 100 with no required skills, 0 with
no candidate skills, and otherwise `min 100 (100·|exact|/n + 50·|partial|/n)`
where `n` counts the required-skill list with duplicates, `|exact|` the
distinct lowercased required skills exactly matched, and `|partial|` the
distinct lowercased required skills in a substring relation with some
candidate skill — exact matches included, since a string is a substring of
itself. -/
theorem C4_skill_score_amended (required candidate : List Skill) :
    calculate_skill_match required candidate = specSkillScoreAmended required candidate := by
  unfold calculate_skill_match specSkillScoreAmended
  split
  · rfl
  · split
    · rfl
    · simp only [exactMatches, partialMatches, length_dedup_filter]
      congr 1
      ring
/-- Both skills match exactly, and both also count for the partial bonus, so
the capped skill subscore of the C5 scenario is 100. -/
lemma matchA_skill : calculate_skill_match requiredPF candidateA.skillTags = 100 := by
  have h1 : (exactMatches (requiredPF.map lowerSkill) (requiredPF.map lowerSkill)).length = 2 := by
    decide
  have h2 : (partialMatches (requiredPF.map lowerSkill)
      (requiredPF.map lowerSkill)).length = 2 := by decide
  have h3 : ((requiredPF : List Skill).map lowerSkill).length = 2 := by decide
  show calculate_skill_match requiredPF requiredPF = 100
  unfold calculate_skill_match
  rw [if_neg (by decide), if_neg (by decide)]
  simp only [h1, h2, h3]
  norm_num [min_def]

/-- 40 hours exceeds 1.5 times the 15 required by a medium-complexity task. -/
lemma matchA_availability :
    calculate_availability_score candidateA.hoursAvailable "medium".toList = 100 := by
  show calculate_availability_score 40 "medium".toList = 100
  unfold calculate_availability_score
  norm_num +decide

/-- C5, counterexample. `calculate_performance_score` maps 90 to the
`>= 90 → 100` band (match.py line 109, confirmed by the source's own test
`test_calculate_performance_score_excellent`), not to 85 as the claim's
expected breakdown demands, so the total is 100, not 96. -/
theorem C5_counterexample :
    matchA.performance_score = 100 ∧ matchA.total_score = 100 ∧
    ¬ (matchA.performance_score = 85 ∧ matchA.total_score = 96) := by
  have hp : calculate_performance_score candidateA.performance = 100 := by decide
  have hr : calculate_recency_score nowC5 candidateA.lastDoneAt = 100 := by decide
  have hperf : matchA.performance_score = 100 := by
    show (calculate_match_score requiredPF "medium".toList nowC5 candidateA).performance_score
      = 100
    unfold calculate_match_score
    exact hp
  have htot : matchA.total_score = 100 := by
    show (calculate_match_score requiredPF "medium".toList nowC5 candidateA).total_score = 100
    unfold calculate_match_score
    simp only [matchA_skill, matchA_availability, hp, hr]
    norm_num
  exact ⟨hperf, htot, fun h => by rw [hperf] at h; norm_num at h⟩

/-- C5, amended. On the claimed input the matcher yields subscores
skill = 100, availability = 100 (40 ≥ 1.5·15), performance = 100 (90 falls in
the ≥ 90 band), recency = 100 (3 days ≤ 7), and total
`100·0.4 + 100·0.25 + 100·0.2 + 100·0.15 = 100`. -/
theorem C5_match_scenario_amended :
    matchA.skill_score = 100 ∧ matchA.availability_score = 100 ∧
    matchA.performance_score = 100 ∧ matchA.recency_score = 100 ∧
    matchA.total_score = 100 * 0.4 + 100 * 0.25 + 100 * 0.2 + 100 * 0.15 := by
  have hp : calculate_performance_score candidateA.performance = 100 := by decide
  have hr : calculate_recency_score nowC5 candidateA.lastDoneAt = 100 := by decide
  unfold matchA calculate_match_score
  refine ⟨matchA_skill, matchA_availability, hp, hr, ?_⟩
  simp only [matchA_skill, matchA_availability, hp, hr]

/-- `find_top_candidates` keeps at most the first three sorted candidates
(`scored_candidates[:3]`, match.py line 312). -/
lemma find_top_candidates_length_le (fetched : Except String (List Candidate))
    (required_skills : List Skill) (task_complexity : List Char) (nowSec : Nat) :
    (find_top_candidates fetched required_skills task_complexity nowSec).length ≤ 3 := by
  cases fetched with
  | error e => simp [find_top_candidates]
  | ok l =>
    cases l with
    | nil => simp [find_top_candidates]
    | cons c cs =>
      simp only [find_top_candidates]
      exact List.length_take_le _ _

/-- The output of `find_top_candidates` is sorted by `match_score`
descending. -/
lemma find_top_candidates_sorted (fetched : Except String (List Candidate))
    (required_skills : List Skill) (task_complexity : List Char) (nowSec : Nat) :
    List.Sorted scoreGE (find_top_candidates fetched required_skills task_complexity nowSec) := by
  cases fetched with
  | error e => simp [find_top_candidates]
  | ok l =>
    cases l with
    | nil => simp [find_top_candidates]
    | cons c cs =>
      simp only [find_top_candidates]
      exact List.Pairwise.sublist (List.take_sublist 3 _)
        (List.sorted_insertionSort scoreGE _)
/-- Evaluation of the scoring loop on the tie candidates. -/
lemma scoreCandidate_tie :
    scoreCandidate [] "medium".toList 0 tieB = scoredB ∧
    scoreCandidate [] "medium".toList 0 tieA = scoredA := by
  have ha : calculate_availability_score (0 : ℚ) "medium".toList = 30 := by
    unfold calculate_availability_score
    norm_num +decide
  have hms : ∀ c : Candidate, c.skillTags = [] → c.hoursAvailable = 0 →
      c.performance = 70 → c.lastDoneAt = none →
      calculate_match_score [] "medium".toList 0 c =
        { skill_score := 100, availability_score := 30, performance_score := 70,
          recency_score := 50, total_score := 69 } := by
    intro c h1 h2 h3 h4
    unfold calculate_match_score
    rw [h1, h2, h3, h4, ha]
    have hs : calculate_skill_match [] [] = 100 := by decide
    have hp : calculate_performance_score 70 = 70 := by decide
    have hr : calculate_recency_score 0 none = 50 := by decide
    rw [hs, hp, hr]
    simp only [MatchScore.mk.injEq]
    norm_num
  constructor
  · unfold scoreCandidate
    rw [hms tieB rfl rfl rfl rfl]
    unfold scoredB
    norm_num
  · unfold scoreCandidate
    rw [hms tieA rfl rfl rfl rfl]
    unfold scoredA scoredB
    norm_num

/-- C6, counterexample. On the pool `[tieB, tieA]`, both candidates score 69;
the stable `list.sort(key=..., reverse=True)` keeps the pool order
`["b", "a"]` even though `"a" < "b"` — ties are not reordered by candidate id
ascending. -/
theorem C6_counterexample :
    (find_top_candidates (.ok [tieB, tieA]) [] "medium".toList 0).map
      (fun s => s.cand.userId) = ["b", "a"] ∧
    (find_top_candidates (.ok [tieB, tieA]) [] "medium".toList 0).map
      (fun s => s.matchScore) = [69, 69] ∧
    "a" < "b" := by
  obtain ⟨hB, hA⟩ := scoreCandidate_tie
  refine ⟨?_, ?_, by rw [String.lt_iff_toList_lt]; decide⟩ <;>
  · simp only [find_top_candidates, List.map_cons, List.map_nil, hB, hA]
    simp +decide [List.insertionSort, List.orderedInsert, scoredB, scoredA, tieB, tieA]

/-- C6, amended. `find_top_candidates` returns at most the top 3 candidates
ordered by total score descending; candidates with equal scores keep their
relative order from the input pool (Python's sort is stable), as the concrete
equal-score pool `[tieB, tieA]` shows — the output is a function of the input
list, hence deterministic, but ties are not reordered by candidate id. -/
theorem C6_rank_order_amended :
    (∀ (fetched : Except String (List Candidate)) rs comp now,
      (find_top_candidates fetched rs comp now).length ≤ 3) ∧
    (∀ (fetched : Except String (List Candidate)) rs comp now,
      List.Sorted scoreGE (find_top_candidates fetched rs comp now)) ∧
    (find_top_candidates (.ok [tieB, tieA]) [] "medium".toList 0).map
      (fun s => s.cand.userId) = ["b", "a"] := by
  obtain ⟨hB, hA⟩ := scoreCandidate_tie
  refine ⟨fun fetched rs comp now => find_top_candidates_length_le _ _ _ _,
    fun fetched rs comp now => find_top_candidates_sorted _ _ _ _, ?_⟩
  simp only [find_top_candidates, List.map_cons, List.map_nil, hB, hA]
  simp +decide [List.insertionSort, List.orderedInsert, scoredB, scoredA, tieB, tieA]

/-- C10. `find_top_candidates` is a total function of its inputs: the
source's catch-all `except` returns `[]` on any internal error (pool read,
scoring, field parsing — modelled by the `.error` case), an empty candidate
pool also returns `[]`, and in every case the result holds at most 3
entries — so a caller cannot tell an empty pool from an internal failure. -/
theorem C10_find_top_candidates_total :
    (∀ (e : String) rs comp now, find_top_candidates (.error e) rs comp now = []) ∧
    (∀ rs comp now, find_top_candidates (.ok []) rs comp now = []) ∧
    (∀ (fetched : Except String (List Candidate)) rs comp now,
      (find_top_candidates fetched rs comp now).length ≤ 3) := by
  exact ⟨fun e rs comp now => rfl, fun rs comp now => rfl,
    fun fetched rs comp now => find_top_candidates_length_le _ _ _ _⟩

/-! ## Claims about the task lifecycle -/

/-- C1. On the first-ever low-scoring evaluation — retry count 0, strictly
below the configured budget `max_retry_attempts = 2` — `_auto_quality_check`
calls `_reject_task` outright (task_manager.py lines 219–224): the task lands
in terminal REJECTED with `rejected_at` set, never back in IN_PROGRESS. No
code path implements the claimed resubmission loop, although the configured
budget exists and the rejection messages sent to the user (webhooks.py lines
435 and 485) promise two more resubmission chances. -/
theorem C1_low_score_rejects_despite_retry_budget :
    0 < max_retry_attempts ∧
    acceptResult.1 = true ∧ submitLow.1 = true ∧
    submitLow.2.status = TaskStatus.rejected ∧
    submitLow.2.rejected_at = some 400 ∧
    submitLow.2.final_score = some 40 ∧
    submitLow.2.failed_reasons = ["代码覆盖率不足"] ∧
    submitLow.2.status ≠ TaskStatus.in_progress := by
  decide

/-- C2, counterexample. `passed = score >= min_pass_score and
len(failed_reasons) == 0` (task_manager.py line 217): a score of 85 against
threshold 80 is rejected, not completed, when the evaluator also returned a
failure reason — the claim's "score ≥ threshold ⇒ COMPLETED" is false. -/
theorem C2_counterexample :
    submitHighWithReasons.2.status = TaskStatus.rejected ∧
    submitHighWithReasons.2.status ≠ TaskStatus.completed ∧
    submitHighWithReasons.2.final_score = some 85 := by
  decide

/-- C2, amended. When the evaluator's score reaches the threshold *and* it
reports no failure reasons, the task is completed with the score persisted in
`final_score` and `completed_at` set; in particular the end-to-end chain
create → assign → accept → submit → evaluate(85, threshold 80, no reasons)
ends COMPLETED with score 85. -/
theorem C2_evaluate_pass_amended :
    (∀ (task : TaskRecord) (minScore score : ℤ) (reasons : List String) (now : Nat),
      minScore ≤ score → reasons = [] →
      (auto_quality_check task minScore (.ok (score, reasons)) now).status =
        TaskStatus.completed ∧
      (auto_quality_check task minScore (.ok (score, reasons)) now).final_score =
        some score ∧
      (auto_quality_check task minScore (.ok (score, reasons)) now).completed_at =
        some now) ∧
    (acceptResult.1 = true ∧ submitPass.1 = true ∧
     submitPass.2.status = TaskStatus.completed ∧
     submitPass.2.final_score = some 85 ∧
     submitPass.2.completed_at = some 400) := by
  constructor
  · intro task minScore score reasons now h1 h2
    subst h2
    simp [auto_quality_check, complete_task, h1]
  · decide

/-- C2, witness for the amended theorem's hypotheses. -/
theorem C2_evaluate_pass_amended_witness :
    (auto_quality_check dummyTask 80 (.ok (85, [])) 7).status = TaskStatus.completed ∧
    (auto_quality_check dummyTask 80 (.ok (85, [])) 7).final_score = some 85 ∧
    (auto_quality_check dummyTask 80 (.ok (85, [])) 7).completed_at = some 7 :=
  C2_evaluate_pass_amended.1 dummyTask 80 85 [] 7 (by decide) rfl
/-- C7, counterexample. `create_task` only checks key *presence*
(task_manager.py lines 44–47): a request with an empty `skill_tags` list and
a long-past deadline is persisted in PENDING instead of failing validation. -/
theorem C7_counterexample :
    (create_task specNoValidation 1700000000).isOk = true ∧
    (create_task specNoValidation 1700000000).toOption.map TaskRecord.status =
      some TaskStatus.pending ∧
    (create_task specNoValidation 1700000000).toOption.map TaskRecord.skilltags =
      some [] ∧
    (create_task specNoValidation 1700000000).toOption.map TaskRecord.deadline =
      some "2020-01-01" := by
  decide

/-- C7, amended. `create` fails (`ValueError`) exactly when one of the four
keys `title`, `description`, `skill_tags`, `deadline` is absent from the
request; nothing else is validated — an empty skill list or a past deadline
is accepted — and on success the task is persisted with status PENDING, the
generated id and the request's fields. -/
theorem C7_create_validates_presence_amended (spec : TaskSpec) (now : Nat) :
    ((create_task spec now).isOk =
      (spec.title.isSome && spec.description.isSome &&
       spec.skill_tags.isSome && spec.deadline.isSome)) ∧
    (∀ r, create_task spec now = .ok r →
      r.status = TaskStatus.pending ∧
      r.taskid = "TASK" ++ toString now ∧
      r.skilltags = spec.skill_tags.getD [] ∧
      r.deadline = spec.deadline.getD "" ∧
      r.create_time = now) := by
  obtain ⟨t, d, sk, dl, u, cb, cr⟩ := spec
  cases t <;> cases d <;> cases sk <;> cases dl <;>
    simp [create_task, Except.isOk, Except.toBool]

/-- C7, witness for the amended theorem's hypotheses. -/
theorem C7_create_validates_presence_amended_witness :
    taskCreated.status = TaskStatus.pending ∧ taskCreated.create_time = 100 := by
  have h := C7_create_validates_presence_amended specOk 100
  have hok : create_task specOk 100 = .ok taskCreated := rfl
  exact ⟨(h.2 taskCreated hok).1, (h.2 taskCreated hok).2.2.2.2⟩

/-- C8. When the review evaluator raises, `_auto_quality_check`'s `except`
branch (task_manager.py lines 226–232) leaves the task in REVIEWING with a
manual-intervention note; the failure is never converted into a COMPLETED or
REJECTED transition and the stored score is untouched. -/
theorem C8_evaluator_error_keeps_reviewing (task : TaskRecord) (minScore : ℤ)
    (e : String) (now : Nat) :
    (auto_quality_check task minScore (.error e) now).status = TaskStatus.reviewing ∧
    (auto_quality_check task minScore (.error e) now).review_note =
      some ("AI审核失败，需要人工审核: " ++ e) ∧
    (auto_quality_check task minScore (.error e) now).status ≠ TaskStatus.completed ∧
    (auto_quality_check task minScore (.error e) now).status ≠ TaskStatus.rejected ∧
    (auto_quality_check task minScore (.error e) now).final_score = task.final_score := by
  unfold auto_quality_check
  simp

/-! ## Claims about the dedup guards -/

/-- A key absent from every entry is not found. -/
lemma lookupEntry_eq_none {l : List (String × Nat)} {k : String}
    (hk : ∀ e ∈ l, e.1 ≠ k) : lookupEntry l k = none := by
  induction l with
  | nil => rfl
  | cons e rest ih =>
    obtain ⟨a, b⟩ := e
    simp only [lookupEntry]
    rw [if_neg (hk (a, b) (by simp))]
    exact ih fun x hx => hk x (by simp [hx])

/-- Storing an absent key appends its entry. -/
lemma setEntry_not_mem {l : List (String × Nat)} {k : String}
    (hk : ∀ e ∈ l, e.1 ≠ k) (v : Nat) : setEntry l k v = l ++ [(k, v)] := by
  induction l with
  | nil => rfl
  | cons e rest ih =>
    obtain ⟨a, b⟩ := e
    simp only [setEntry]
    rw [if_neg (hk (a, b) (by simp))]
    simp only [List.cons_append, List.cons.injEq, true_and]
    exact ih fun x hx => hk x (by simp [hx])

/-- Storing a key held only by the last entry overwrites that entry. -/
lemma setEntry_append_self {l : List (String × Nat)} {k : String}
    (hk : ∀ e ∈ l, e.1 ≠ k) (v w : Nat) :
    setEntry (l ++ [(k, v)]) k w = l ++ [(k, w)] := by
  induction l with
  | nil => simp [setEntry]
  | cons e rest ih =>
    obtain ⟨a, b⟩ := e
    simp only [List.cons_append, setEntry]
    rw [if_neg (hk (a, b) (by simp))]
    simp only [List.cons.injEq, true_and]
    exact ih fun x hx => hk x (by simp [hx])

/-- Looking up a key held only by the last entry finds it. -/
lemma lookupEntry_append_self {l : List (String × Nat)} {k : String}
    (hk : ∀ e ∈ l, e.1 ≠ k) (v : Nat) :
    lookupEntry (l ++ [(k, v)]) k = some v := by
  induction l with
  | nil => simp [lookupEntry]
  | cons e rest ih =>
    obtain ⟨a, b⟩ := e
    simp only [List.cons_append, lookupEntry]
    rw [if_neg (hk (a, b) (by simp))]
    exact ih fun x hx => hk x (by simp [hx])

/-- Whenever `admitCreation` admits, every entry of the new cache is at most
`TASK_CREATION_WINDOW` old: the sweep at main.py lines 700–703 removes the
rest. -/
lemma admitCreation_sweeps (cache : List (String × Nat)) (key : String) (now : Nat)
    (htrue : (admitCreation cache key now).1 = true) :
    ∀ e ∈ (admitCreation cache key now).2, now - e.2 ≤ TASK_CREATION_WINDOW := by
  intro e he
  cases hc : creationAllowed cache key now with
  | false => simp [admitCreation, hc] at htrue
  | true =>
    simp only [admitCreation, hc, if_true] at he
    have hp := List.of_mem_filter he
    simpa [Nat.not_lt] using of_decide_eq_true hp

/-- An admission with a known outcome of the window test reduces to its
branch. -/
lemma admitCreation_allowed {cache : List (String × Nat)} {key : String} {now : Nat}
    (hc : creationAllowed cache key now = true) :
    admitCreation cache key now = (true, recordCreation cache key now) := by
  simp [admitCreation, hc]

/-- A rejected admission leaves the cache untouched. -/
lemma admitCreation_rejected {cache : List (String × Nat)} {key : String} {now : Nat}
    (hc : creationAllowed cache key now = false) :
    admitCreation cache key now = (false, cache) := by
  simp [admitCreation, hc]

/-- Recording a fresh key: the cache is swept and `(key, now)` appended. -/
lemma recordCreation_fresh {cache : List (String × Nat)} {key : String}
    (hk : ∀ e ∈ cache, e.1 ≠ key) (now : Nat) :
    recordCreation cache key now =
      (cache.filter fun e => ¬ (TASK_CREATION_WINDOW < now - e.2)) ++ [(key, now)] := by
  unfold recordCreation
  rw [setEntry_not_mem hk, List.filter_append]
  congr 1
  simp [Nat.sub_self]

/-- Re-recording a key held only by the last entry: that entry is
overwritten, the rest swept. -/
lemma recordCreation_overwrite {l : List (String × Nat)} {key : String}
    (hk : ∀ e ∈ l, e.1 ≠ key) (v now : Nat) :
    recordCreation (l ++ [(key, v)]) key now =
      (l.filter fun e => ¬ (TASK_CREATION_WINDOW < now - e.2)) ++ [(key, now)] := by
  unfold recordCreation
  rw [setEntry_append_self hk, List.filter_append]
  congr 1
  simp [Nat.sub_self]

/-- C3. Starting from a cache not holding hash `h` (only distinct keys, as
the handler maintains): the first `admitCreation(h)` at `t1` admits and
records `(h, t1)`; a second at `t2` within the window is rejected with the
cache unchanged; a third at `t3`, the window having elapsed, admits again and
re-records `(h, t3)`; and after any admitting call every retained entry is at
most `TASK_CREATION_WINDOW = 300` seconds old, so expired entries are swept
on the next admitted call. -/
theorem C3_admitCreation_dedup_window (cache : List (String × Nat)) (h : String)
    (t1 t2 t3 : Nat) (hfresh : ∀ e ∈ cache, e.1 ≠ h)
    (hwin : t2 - t1 < TASK_CREATION_WINDOW)
    (hgone : TASK_CREATION_WINDOW ≤ t3 - t1) :
    (admitCreation cache h t1).1 = true ∧
    lookupEntry (admitCreation cache h t1).2 h = some t1 ∧
    admitCreation (admitCreation cache h t1).2 h t2 = (false, (admitCreation cache h t1).2) ∧
    (admitCreation (admitCreation cache h t1).2 h t3).1 = true ∧
    lookupEntry (admitCreation (admitCreation cache h t1).2 h t3).2 h = some t3 ∧
    ∀ e ∈ (admitCreation (admitCreation cache h t1).2 h t3).2,
      t3 - e.2 ≤ TASK_CREATION_WINDOW := by
  have hallow1 : creationAllowed cache h t1 = true := by
    unfold creationAllowed
    rw [lookupEntry_eq_none hfresh]
  have hc1 : (admitCreation cache h t1).2 =
      (cache.filter fun e => ¬ (TASK_CREATION_WINDOW < t1 - e.2)) ++ [(h, t1)] := by
    rw [admitCreation_allowed hallow1]
    exact recordCreation_fresh hfresh t1
  have hsub : ∀ e ∈ cache.filter fun e => ¬ (TASK_CREATION_WINDOW < t1 - e.2),
      e.1 ≠ h := fun e he => hfresh e (List.mem_of_mem_filter he)
  have hlook1 : lookupEntry (admitCreation cache h t1).2 h = some t1 := by
    rw [hc1]
    exact lookupEntry_append_self hsub t1
  have hallow2 : creationAllowed (admitCreation cache h t1).2 h t2 = false := by
    unfold creationAllowed
    rw [hlook1]
    exact decide_eq_false (not_not_intro hwin)
  have hproceed3 : ¬ (t3 - t1 < TASK_CREATION_WINDOW) := not_lt.mpr hgone
  have hallow3 : creationAllowed (admitCreation cache h t1).2 h t3 = true := by
    unfold creationAllowed
    rw [hlook1]
    exact decide_eq_true hproceed3
  have hrec3 : (admitCreation (admitCreation cache h t1).2 h t3).2 =
      ((cache.filter fun e => ¬ (TASK_CREATION_WINDOW < t1 - e.2)).filter
        fun e => ¬ (TASK_CREATION_WINDOW < t3 - e.2)) ++ [(h, t3)] := by
    rw [admitCreation_allowed hallow3, hc1]
    exact recordCreation_overwrite hsub t1 t3
  refine ⟨by rw [admitCreation_allowed hallow1], hlook1,
    admitCreation_rejected hallow2, by rw [admitCreation_allowed hallow3], ?_, ?_⟩
  · rw [hrec3]
    exact lookupEntry_append_self
      (fun e he => hsub e (List.mem_of_mem_filter he)) t3
  · exact admitCreation_sweeps _ _ _ (by rw [admitCreation_allowed hallow3])

/-- C3, witness: empty cache, admissions at times 0, 100 (rejected, within
the 300 s window) and 400 (admitted again). -/
theorem C3_admitCreation_dedup_window_witness :
    (admitCreation [] "h1" 0).1 = true ∧
    admitCreation (admitCreation [] "h1" 0).2 "h1" 100 =
      (false, (admitCreation [] "h1" 0).2) ∧
    (admitCreation (admitCreation [] "h1" 0).2 "h1" 400).1 = true := by
  have h := C3_admitCreation_dedup_window [] "h1" 0 100 400 (by simp)
    (by decide) (by decide)
  exact ⟨h.1, h.2.2.1, h.2.2.2.1⟩

/-- Inserting an id below every held id puts it at the front of the
enumeration. -/
lemma insertSortedId_front {m x : Nat} (h : m < x) (xs : List Nat) :
    insertSortedId m (x :: xs) = m :: x :: xs := by
  simp [insertSortedId, h]

/-- Inserting an id adds at most one entry. -/
lemma length_insertSortedId (m : Nat) (l : List Nat) :
    (insertSortedId m l).length ≤ l.length + 1 := by
  induction l with
  | nil => simp [insertSortedId]
  | cons x xs ih =>
    by_cases h1 : m < x
    · simp [insertSortedId, h1]
    · by_cases h2 : m = x
      · simp [insertSortedId, h1, h2]
      · simp only [insertSortedId, if_neg h1, if_neg h2, List.length_cons]
        omega

/-- C9, amended. `admitMessage` skips an already-seen id with no state
change and admits an unseen one, and the seen-set stays bounded by
`MAX_CACHE_SIZE = 1000` entries: on overflow, half the enumeration is
dropped. The evicted half is the front of the set's internal enumeration —
which carries no arrival-time information — not the oldest entries. -/
theorem C9_admitMessage_amended (seen : List Nat) (m : Nat) :
    (m ∈ seen → admitMessage seen m = (false, seen)) ∧
    (m ∉ seen → (admitMessage seen m).1 = true) ∧
    (seen.length ≤ MAX_CACHE_SIZE → (admitMessage seen m).2.length ≤ MAX_CACHE_SIZE) := by
  refine ⟨fun hm => by simp [admitMessage, hm], fun hm => ?_, fun hlen => ?_⟩
  · by_cases hover : MAX_CACHE_SIZE < (insertSortedId m seen).length <;>
      simp [admitMessage, hm, hover]
  · by_cases hm : m ∈ seen
    · simpa [admitMessage, hm] using hlen
    · have hins := length_insertSortedId m seen
      by_cases hover : MAX_CACHE_SIZE < (insertSortedId m seen).length
      · simp only [admitMessage, if_neg hm, if_pos hover, List.length_drop]
        simp only [MAX_CACHE_SIZE] at *
        omega
      · simp only [admitMessage, if_neg hm, if_neg hover]
        simp only [MAX_CACHE_SIZE] at *
        omega

/-- C9, witness for the amended theorem's hypotheses. -/
theorem C9_admitMessage_amended_witness :
    admitMessage [5] 5 = (false, [5]) ∧
    (admitMessage [5] 7).1 = true ∧
    (admitMessage [5] 7).2.length ≤ MAX_CACHE_SIZE :=
  ⟨(C9_admitMessage_amended [5] 5).1 (by decide),
   (C9_admitMessage_amended [5] 7).2.1 (by decide),
   (C9_admitMessage_amended [5] 7).2.2 (by decide)⟩

/-- One middle step of the C9 scenario: with ids `j+1 … 999` and `9999` held,
admitting `j` (for `1 ≤ j ≤ 999`) prepends it to the enumeration without
overflowing the cache. -/
lemma admitMessage_desc_step (j : Nat) (h1 : 1 ≤ j) (h2 : j ≤ 999) :
    admitMessage (List.range' (j+1) (999-j) ++ [9999]) j =
      (true, List.range' j (1000-j) ++ [9999]) := by
  have hnotmem : j ∉ List.range' (j+1) (999-j) ++ [9999] := by
    simp only [List.mem_append, List.mem_range'_1, List.mem_singleton]
    omega
  have hins : insertSortedId j (List.range' (j+1) (999-j) ++ [9999]) =
      j :: (List.range' (j+1) (999-j) ++ [9999]) := by
    cases h9 : 999 - j with
    | zero =>
      exact insertSortedId_front (by omega) []
    | succ n =>
      rw [List.range'_succ, List.cons_append]
      exact insertSortedId_front (by omega) _
  have hlen : ¬ (MAX_CACHE_SIZE <
      (j :: (List.range' (j+1) (999-j) ++ [9999])).length) := by
    simp [MAX_CACHE_SIZE, List.length_range']
    omega
  unfold admitMessage
  rw [if_neg hnotmem, hins, if_neg hlen]
  have hr : List.range' j (1000-j) = j :: List.range' (j+1) (999-j) := by
    have h10 : 1000 - j = (999 - j) + 1 := by omega
    rw [h10, List.range'_succ]
  rw [hr, List.cons_append]

/-- Folding the C9 scenario down from id `k` to 0: the run ends in the state
`[500…999, 9999]`. -/
lemma runAdmits_desc (k : Nat) (hk : k ≤ 999) :
    List.foldl (fun seen m => (admitMessage seen m).2)
      (List.range' (k+1) (999-k) ++ [9999]) ((List.range (k+1)).reverse) =
      List.range' 500 500 ++ [9999] := by
  revert hk
  induction k with
  | zero =>
    intro _
    have hrev1 : (List.range 1).reverse = [0] := rfl
    simp only [Nat.zero_add, Nat.sub_zero, hrev1, List.foldl_cons, List.foldl_nil]
    have hnotmem : (0:Nat) ∉ List.range' 1 999 ++ [9999] := by
      simp [List.mem_range'_1]
    have hins : insertSortedId 0 (List.range' 1 999 ++ [9999]) =
        0 :: (List.range' 1 999 ++ [9999]) := by
      have h999 : List.range' 1 999 = 1 :: List.range' 2 998 := by
        rw [show (999:Nat) = 998+1 from rfl, List.range'_succ]
      rw [h999, List.cons_append]
      exact insertSortedId_front (by omega) _
    have hover : MAX_CACHE_SIZE < (0 :: (List.range' 1 999 ++ [9999])).length := by
      simp [MAX_CACHE_SIZE, List.length_range']
    have hstep : admitMessage (List.range' 1 999 ++ [9999]) 0 =
        (true, (0 :: (List.range' 1 999 ++ [9999])).drop (MAX_CACHE_SIZE / 2)) := by
      unfold admitMessage
      rw [if_neg hnotmem, hins, if_pos hover]
    have hdrop : (0 :: (List.range' 1 999 ++ [9999])).drop (MAX_CACHE_SIZE / 2) =
        List.range' 500 500 ++ [9999] := by
      have h01 : List.range' 0 1000 = 0 :: List.range' 1 999 := by
        rw [show (1000:Nat) = 999+1 from rfl, List.range'_succ]
      have hsplit : List.range' 0 1000 = List.range' 0 500 ++ List.range' 500 500 := by
        have hap := List.range'_append 0 500 500 1
        norm_num at hap
        exact hap.symm
      have hhalf : MAX_CACHE_SIZE / 2 = (List.range' 0 500).length := by
        simp [MAX_CACHE_SIZE, List.length_range']
      rw [← List.cons_append, ← h01, hsplit, List.append_assoc, hhalf, List.drop_left]
    rw [hstep, hdrop]
  | succ k ih =>
    intro hk
    have hrev : (List.range (k+1+1)).reverse = (k+1) :: (List.range (k+1)).reverse := by
      simp [List.range_succ]
    rw [hrev, List.foldl_cons, admitMessage_desc_step (k+1) (by omega) (by omega)]
    have h10 : 1000 - (k+1) = 999 - k := by omega
    simp only [h10]
    exact ih (by omega)

/-- C9, counterexample. Run the guard (empty initial seen-set) over 1001
distinct ids arriving in the order `9999, 999, 998, …, 0`. The 1001st
admission overflows the cache and evicts `MAX_CACHE_SIZE / 2 = 500` entries —
but the evicted ids `0…499` are the 500 *youngest* entries, while the very
oldest id, `9999`, survives: `list(set)[:500]` follows the set's enumeration
order, which carries no arrival-time information, so the oldest half is not
what is evicted. -/
theorem C9_counterexample :
    9999 ∈ runAdmits (9999 :: (List.range 1000).reverse) ∧
    0 ∉ runAdmits (9999 :: (List.range 1000).reverse) ∧
    (runAdmits (9999 :: (List.range 1000).reverse)).length = 501 := by
  have hstart : (fun (seen : List Nat) (m : Nat) => (admitMessage seen m).2) [] 9999 =
      List.range' (999+1) (999-999) ++ [9999] := by
    show (admitMessage [] 9999).2 = List.range' (999+1) (999-999) ++ [9999]
    unfold admitMessage
    rw [if_neg (List.not_mem_nil 9999),
      if_neg (by decide : ¬ (MAX_CACHE_SIZE < (insertSortedId 9999 []).length))]
    rfl
  have step1 : runAdmits (9999 :: (List.range 1000).reverse) =
      List.foldl (fun seen m => (admitMessage seen m).2)
        ((fun (seen : List Nat) (m : Nat) => (admitMessage seen m).2) [] 9999)
        ((List.range 1000).reverse) := by
    unfold runAdmits
    exact List.foldl_cons _ _
  have step2 : List.foldl (fun seen m => (admitMessage seen m).2)
      ((fun (seen : List Nat) (m : Nat) => (admitMessage seen m).2) [] 9999)
      ((List.range 1000).reverse)
      = List.foldl (fun seen m => (admitMessage seen m).2)
        (List.range' (999+1) (999-999) ++ [9999]) ((List.range 1000).reverse) :=
    congrArg (fun x => List.foldl (fun seen m => (admitMessage seen m).2) x
      ((List.range 1000).reverse)) hstart
  have step3 : List.foldl (fun seen m => (admitMessage seen m).2)
      (List.range' (999+1) (999-999) ++ [9999]) ((List.range 1000).reverse)
      = List.foldl (fun seen m => (admitMessage seen m).2)
        (List.range' (999+1) (999-999) ++ [9999]) ((List.range (999+1)).reverse) :=
    congrArg (fun n => List.foldl (fun seen m => (admitMessage seen m).2)
      (List.range' (999+1) (999-999) ++ [9999]) ((List.range n).reverse))
      (by norm_num : (1000:Nat) = 999+1)
  have hrun : runAdmits (9999 :: (List.range 1000).reverse) =
      List.range' 500 500 ++ [9999] :=
    ((step1.trans step2).trans step3).trans (runAdmits_desc 999 (le_refl 999))
  refine ⟨?_, ?_, ?_⟩ <;> rw [hrun]
  · simp
  · norm_num [List.mem_range'_1]
  · simp [List.length_range']

end Taskbot
